import Mathlib

/-!
Shallow embedding of the spotify-soundgoodizer extension core, verified
against its specification.

The Page Agent lives in `src/public/inject.js` (the variant actually loaded
by the Bridge, `src/src/content/content.ts`): it overrides the
`playbackRate` setter on `HTMLMediaElement.prototype`, wraps
`document.createElement` to capture media elements into a registry, and
answers CustomEvent commands.  The Bridge sends those commands through
one-shot event subscriptions with a timeout.

Numbers (playback speeds) are modelled as rationals; media elements as
records carrying the fields the agent's code reads or writes, plus an `id`
that stands for JavaScript object identity.
-/

/-- Whether the character list `needle` is a prefix of `hay`
(models the start of `String.prototype.includes`). -/
def beginsWith : List Char → List Char → Bool
  | [], _ => true
  | _ :: _, [] => false
  | a :: as, b :: bs => a == b && beginsWith as bs

/-- Whether `needle` occurs as a contiguous substring of the second list
(models JavaScript `String.prototype.includes`). -/
def containsSub (needle : List Char) : List Char → Bool
  | [] => beginsWith needle []
  | c :: rest => beginsWith needle (c :: rest) || containsSub needle rest

/-- A media element as seen by the agent: object identity (`id`), the
class name of its parent element when it has one, playback state read by
`getMediaElement`, and the two properties the agent writes. -/
structure MediaElement where
  id : Nat
  parentClassName : Option String
  paused : Bool
  readyState : Nat
  rate : ℚ
  preservesPitch : Bool
deriving DecidableEq, Repr

/-- The characters of a string, lowercased (models
`String.prototype.toLowerCase`). -/
def lowerChars (s : String) : List Char :=
  s.toList.map Char.toLower

/-- Canvas heuristic from the `playbackRate` setter (inject.js line 24):
`this.parentElement && this.parentElement.className.toLowerCase().includes('canvas')`. -/
def isCanvas (el : MediaElement) : Bool :=
  match el.parentClassName with
  | none => false
  | some c => containsSub "canvas".toList (lowerChars c)

/-- A value written to the `playbackRate` property: either the agent's
marker object carrying a `source` string and a `value` number, or a bare
number (the host page's own writes). -/
inductive RateWrite where
  | tagged (source : String) (value : ℚ)
  | bare (value : ℚ)
deriving DecidableEq

/-- The overridden `playbackRate` setter (inject.js lines 21-42): canvas
elements are forced to rate 1; a write tagged with the extension's
identifier is unwrapped and applied; any other write is discarded and the
remembered `currentSpeed` applied instead. -/
def playbackRateSet (currentSpeed : ℚ) (el : MediaElement) (w : RateWrite) : MediaElement :=
  if isCanvas el then
    { el with rate := 1 }
  else
    match w with
    | .tagged src v =>
      if src = "spotify-pitch-shifter" then { el with rate := v }
      else { el with rate := currentSpeed }
    | .bare _ => { el with rate := currentSpeed }

/-- The overridden `playbackRate` getter is a pure passthrough to the
original getter (inject.js lines 38-40). -/
def playbackRateGet (el : MediaElement) : ℚ := el.rate

/-- Page Agent state: the settings variables `currentSpeed` and
`currentPreservesPitch` (inject.js lines 8-9), the registry
`spotifyPlaybackEls` (line 5), and the ids of elements whose deferred
settings application (the `setTimeout` queued at creation) has not yet run. -/
structure AgentState where
  currentSpeed : ℚ
  currentPreservesPitch : Bool
  elements : List MediaElement
  pending : List Nat
deriving DecidableEq, Repr

/-- Initial agent state (inject.js lines 5-9): empty registry, speed 1.0,
preservesPitch true. -/
def initialAgentState : AgentState :=
  { currentSpeed := 1, currentPreservesPitch := true, elements := [], pending := [] }

/-- The `setSpeed` function (inject.js lines 99-107): store the speed, then
write the tagged marker to every registered element; each write runs
through the overridden setter with the already-updated `currentSpeed`. -/
def setSpeed (st : AgentState) (speed : ℚ) : AgentState :=
  { st with
    currentSpeed := speed,
    elements := st.elements.map fun el =>
      playbackRateSet speed el (RateWrite.tagged "spotify-pitch-shifter" speed) }

/-- The `setPreservesPitch` function (inject.js lines 110-118): store the
flag and set the native `preservesPitch` property on every registered
element (that property is not overridden). -/
def setPreservesPitch (st : AgentState) (preserve : Bool) : AgentState :=
  { st with
    currentPreservesPitch := preserve,
    elements := st.elements.map fun el => { el with preservesPitch := preserve } }

/-- The record returned by the agent's `getSettings` (inject.js lines 121-127). -/
structure SettingsView where
  speed : ℚ
  preservesPitch : Bool
  elementCount : Nat
deriving DecidableEq, Repr

/-- The `getSettings` function (inject.js lines 121-127). -/
def getSettings (st : AgentState) : SettingsView :=
  { speed := st.currentSpeed
    preservesPitch := st.currentPreservesPitch
    elementCount := st.elements.length }

/-- The qualification test in `getMediaElement`'s scan (inject.js line 84):
`!el.paused && el.readyState >= 2` (the `el &&` truthiness test always
passes: the registry holds real elements). -/
def isActive (el : MediaElement) : Bool :=
  !el.paused && decide (2 ≤ el.readyState)

/-- The `getMediaElement` lookup of `src/public/inject.js` (lines 80-96):
scan the registry from the end for the first playing element with enough
buffered data; else the most recently registered element; else fall back to
a DOM query (`document.querySelectorAll('audio, video')`, modelled by the
`domMedia` argument) and return its last element or null. -/
def getMediaElement (els domMedia : List MediaElement) : Option MediaElement :=
  match els.reverse.find? isActive with
  | some el => some el
  | none =>
    match els.getLast? with
    | some el => some el
    | none => domMedia.getLast?

/-- The `getSpotifyMediaElement` lookup of the draft Page Agent
`src/src/content/inject.ts` (lines 37-47): same scan, but the fallback is
just the last registered element or null - no DOM query. -/
def getSpotifyMediaElement (els : List MediaElement) : Option MediaElement :=
  match els.reverse.find? isActive with
  | some el => some el
  | none => els.getLast?

/-- The body of the deferred `setTimeout` queued at element creation
(inject.js lines 60-64): write the tagged marker carrying the current
speed (through the overridden setter) and set `preservesPitch`, reading
the settings variables at the time the timeout fires. -/
def applySettingsTo (cs : ℚ) (cp : Bool) (el : MediaElement) : MediaElement :=
  { playbackRateSet cs el (RateWrite.tagged "spotify-pitch-shifter" cs) with
    preservesPitch := cp }

/-- Run the deferred settings application for the element with id `i`. -/
def runDeferred (st : AgentState) (i : Nat) : AgentState :=
  { st with
    elements := st.elements.map fun el =>
      if el.id = i then applySettingsTo st.currentSpeed st.currentPreservesPitch el else el,
    pending := st.pending.erase i }

/-- A host-page write of a bare number `x` to the `playbackRate` property
of the registered element with id `i`; it runs through the overridden
setter. -/
def hostWrite (st : AgentState) (i : Nat) (x : ℚ) : AgentState :=
  { st with
    elements := st.elements.map fun el =>
      if el.id = i then playbackRateSet st.currentSpeed el (RateWrite.bare x) else el }

/-- The media-tag test of the `createElement` override (inject.js line 55):
`tagName.toLowerCase() === 'video' || tagName.toLowerCase() === 'audio'`. -/
def isMediaTag (tag : String) : Bool :=
  lowerChars tag == "video".toList || lowerChars tag == "audio".toList

/-- Notification emitted by the `createElement` override (inject.js
lines 67-69): the `spotifyMediaElementCreated` CustomEvent. -/
inductive AgentEvent where
  | mediaElementCreated (elementId : Nat) (tag : String)
deriving DecidableEq

/-- The `document.createElement` override (inject.js lines 51-73).  The
`fresh` argument is the element produced by the call-through to the
original `createElement` (which the wrapper performs unconditionally, line
52).  For media tags the element is appended to the registry, a deferred
settings application is queued, and a notification event is emitted; the
element itself is always returned. -/
def createElement (st : AgentState) (tag : String) (fresh : MediaElement) :
    AgentState × MediaElement × List AgentEvent :=
  if isMediaTag tag then
    ({ st with
        elements := st.elements ++ [fresh],
        pending := st.pending ++ [fresh.id] },
      fresh,
      [AgentEvent.mediaElementCreated fresh.id tag])
  else
    (st, fresh, [])

/-- Response payload shape of the `spotify-pitch-shifter-response`
CustomEvent (inject.js lines 137-154): exactly one of the optional fields is
populated by each branch. -/
structure ResponsePayload where
  ready : Option Bool := none
  hasMediaElement : Option Bool := none
  success : Option Bool := none
deriving DecidableEq, Repr

/-- A command reaching the Page Agent's command listener.  The listener
dispatches on the `command` string of the event detail (inject.js lines
131-156); the four recognized strings are the four typed constructors, and
`unknownCmd s` stands for any other command string `s`. -/
inductive PageCmd where
  | checkReady
  | checkMediaElement
  | setSpeedCmd (v : ℚ)
  | setPreservesPitchCmd (b : Bool)
  | unknownCmd (s : String)
deriving DecidableEq

/-- The Page Agent's command listener (inject.js lines 131-156).  Returns
the updated state and the response payload dispatched, if any: the if/else
chain has no final else branch, so an unrecognized command produces no
response at all. -/
def handlePageCommand (st : AgentState) (domMedia : List MediaElement) :
    PageCmd → AgentState × Option ResponsePayload
  | .checkReady => (st, some { ready := some true })
  | .checkMediaElement =>
      (st, some { hasMediaElement := some (getMediaElement st.elements domMedia).isSome })
  | .setSpeedCmd v => (setSpeed st v, some { success := some true })
  | .setPreservesPitchCmd b => (setPreservesPitch st b, some { success := some true })
  | .unknownCmd _ => (st, none)

/-- A state-affecting operation of the Page Agent: an intercepted
`document.createElement` call, a deferred settings application firing, a
host-page write to `playbackRate`, or a command arriving at the listener. -/
inductive AgentOp where
  | createOp (tag : String) (fresh : MediaElement)
  | deferredOp (i : Nat)
  | hostWriteOp (i : Nat) (x : ℚ)
  | commandOp (c : PageCmd) (domMedia : List MediaElement)
deriving DecidableEq

/-- State transition of one agent operation. -/
def applyOp (st : AgentState) : AgentOp → AgentState
  | .createOp tag fresh => (createElement st tag fresh).1
  | .deferredOp i => runDeferred st i
  | .hostWriteOp i x => hostWrite st i x
  | .commandOp c domMedia => (handlePageCommand st domMedia c).1

/-- Run a sequence of agent operations from a state. -/
def applyOps (st : AgentState) (ops : List AgentOp) : AgentState :=
  ops.foldl applyOp st

/-- Whether an operation is a SetSpeed or SetPreservesPitch command. -/
def isSettingsOp : AgentOp → Bool
  | .commandOp (PageCmd.setSpeedCmd _) _ => true
  | .commandOp (PageCmd.setPreservesPitchCmd _) _ => true
  | _ => false

/-- Bridge-side state of the cross-realm call mechanism
(`sendPageCommand`, content.ts lines 46-68).  `listeners` are the one-shot
`spotify-pitch-shifter-response` handlers currently registered, in
registration order, identified by the call they belong to; `outcomes`
records, in resolution order, what each finished call's promise resolved
with (`none` = the `resolve(null)` of the timeout path). -/
structure BridgeState where
  listeners : List Nat
  outcomes : List (Nat × Option ResponsePayload)
deriving DecidableEq, Repr

/-- An event of the cross-realm call mechanism: a `sendPageCommand` call
registering its one-shot handler and dispatching its command; a response
CustomEvent being dispatched by the Page Agent; or a call's 1-second
timeout firing. -/
inductive BridgeOp where
  | send (callId : Nat)
  | respond (r : ResponsePayload)
  | timeoutFire (callId : Nat)
deriving DecidableEq

/-- One step of the cross-realm call mechanism.  A dispatched response
event is delivered to every handler registered at that moment (the
handlers carry no correlation id and each removes only itself), so every
pending call resolves with the same payload.  A timeout firing for a call
still listening removes the handler and resolves that call with `null`;
for an already-resolved call both the removal and the extra `resolve` are
no-ops. -/
def stepBridge (st : BridgeState) : BridgeOp → BridgeState
  | .send c => { st with listeners := st.listeners ++ [c] }
  | .respond r =>
      { listeners := [],
        outcomes := st.outcomes ++ st.listeners.map fun c => (c, some r) }
  | .timeoutFire c =>
      if c ∈ st.listeners then
        { listeners := st.listeners.erase c, outcomes := st.outcomes ++ [(c, none)] }
      else st

/-- Run a sequence of bridge events from the empty state. -/
def runBridge (ops : List BridgeOp) : BridgeState :=
  ops.foldl stepBridge { listeners := [], outcomes := [] }

/-- The Bridge's mirrored copy of the settings
(content.ts lines 8-10). -/
structure BridgeMirror where
  pitch : ℚ
  speed : ℚ
  preservesPitch : Bool
deriving DecidableEq, Repr

/-- The settings record returned to the popup by the content script's
`getSettings` (content.ts lines 208-213). -/
structure BridgeSettings where
  pitch : ℚ
  speed : ℚ
deriving DecidableEq, Repr

/-- Response sent by the content script's `chrome.runtime.onMessage`
listener via `sendResponse` (content.ts lines 222-253). -/
structure RuntimeResponse where
  success : Bool
  error : Option String := none
  settings : Option BridgeSettings := none
deriving DecidableEq, Repr

/-- The response mapping of the content script's `chrome.runtime.onMessage`
listener (content.ts lines 222-253), dispatching on the `action` string.
`initOutcome` stands for the boolean the asynchronous `init()` call
resolves with; the listener's side effects on the page realm are modelled
separately by the agent operations. -/
def handleRuntimeMessage (mirror : BridgeMirror) (initOutcome : Bool)
    (action : String) : RuntimeResponse :=
  if action = "init" then { success := initOutcome }
  else if action = "setPitch" then { success := true }
  else if action = "setSpeed" then { success := true }
  else if action = "getSettings" then
    { success := true, settings := some { pitch := mirror.pitch, speed := mirror.speed } }
  else { success := false, error := some "Unknown action" }

/-- A concrete media element, used to instantiate theorems. -/
def elW : MediaElement :=
  { id := 0, parentClassName := none, paused := true, readyState := 0,
    rate := 1, preservesPitch := true }

/-- A concrete agent state holding one registered element. -/
def stW : AgentState :=
  { currentSpeed := 1, currentPreservesPitch := true, elements := [elW], pending := [] }

/-- A concrete media element standing for one found only by the DOM
query fallback, not present in the registry. -/
def domOnlyElement : MediaElement :=
  { id := 99, parentClassName := none, paused := true, readyState := 0,
    rate := 1, preservesPitch := true }

/-- The canvas heuristic ignores every field but the parent class name, so
any write through the overridden setter leaves it unchanged. -/
lemma isCanvas_playbackRateSet (cs : ℚ) (el : MediaElement) (w : RateWrite) :
    isCanvas (playbackRateSet cs el w) = isCanvas el := by
  cases el with
  | mk i pc pa rs r pp =>
    unfold playbackRateSet
    split
    · rfl
    · cases w with
      | tagged src v => dsimp only; split <;> rfl
      | bare x => rfl

/-- The overridden setter never changes an element's identity. -/
lemma playbackRateSet_id (cs : ℚ) (el : MediaElement) (w : RateWrite) :
    (playbackRateSet cs el w).id = el.id := by
  unfold playbackRateSet
  split
  · rfl
  · cases w with
    | tagged src v => dsimp only; split <;> rfl
    | bare x => rfl

/-- The deferred settings application never changes an element's identity. -/
lemma applySettingsTo_id (cs : ℚ) (cp : Bool) (el : MediaElement) :
    (applySettingsTo cs cp el).id = el.id := by
  unfold applySettingsTo
  simp [playbackRateSet_id]

/-- Updating the rate field leaves the canvas heuristic unchanged. -/
lemma isCanvas_rate_update (el : MediaElement) (a : ℚ) :
    isCanvas { el with rate := a } = isCanvas el := rfl

/-- Overwriting the rate field twice keeps only the last write. -/
lemma rate_update_update (el : MediaElement) (a b : ℚ) :
    { ({ el with rate := a } : MediaElement) with rate := b } = { el with rate := b } := rfl

/-- A write tagged with the extension's own identifier applies rate 1 on
canvas elements and the carried value otherwise. -/
lemma playbackRateSet_tagged_ok (cs v : ℚ) (el : MediaElement) :
    playbackRateSet cs el (RateWrite.tagged "spotify-pitch-shifter" v)
      = if isCanvas el then { el with rate := 1 } else { el with rate := v } := by
  by_cases h : isCanvas el <;> simp [playbackRateSet, h]

/-- Re-sending the agent's own tagged write with the same speed is a no-op
on an element already carrying it. -/
lemma applyTagged_idem (v : ℚ) (el : MediaElement) :
    playbackRateSet v
        (playbackRateSet v el (RateWrite.tagged "spotify-pitch-shifter" v))
        (RateWrite.tagged "spotify-pitch-shifter" v)
      = playbackRateSet v el (RateWrite.tagged "spotify-pitch-shifter" v) := by
  by_cases h : isCanvas el
  · rw [playbackRateSet_tagged_ok v v el, if_pos h, playbackRateSet_tagged_ok,
      isCanvas_rate_update, if_pos h, rate_update_update]
  · rw [playbackRateSet_tagged_ok v v el, if_neg h, playbackRateSet_tagged_ok,
      isCanvas_rate_update, if_neg h, rate_update_update]

/-- Claim C6: SetSpeed(v) then SetPreservesPitch(b) then getSettings()
returns exactly speed v and preservesPitch b. -/
theorem setSpeed_setPreservesPitch_getSettings_roundtrip
    (st : AgentState) (v : ℚ) (b : Bool) :
    (getSettings (setPreservesPitch (setSpeed st v) b)).speed = v
    ∧ (getSettings (setPreservesPitch (setSpeed st v) b)).preservesPitch = b :=
  ⟨rfl, rfl⟩

/-- Claim C7: calling setSpeed(v) twice in a row yields the same agent
state (stored speed, every element's playback rate, and everything else)
as calling it once. -/
theorem setSpeed_idempotent (st : AgentState) (v : ℚ) :
    setSpeed (setSpeed st v) v = setSpeed st v := by
  cases st with
  | mk cs cp els pend =>
    simp only [setSpeed, AgentState.mk.injEq, true_and, and_true]
    rw [List.map_map]
    exact List.map_congr_left fun el _ => applyTagged_idem v el

/-- Claim C9: the createElement wrapper returns the element produced by
the call-through to the original creation function for every tag, and for
a non-media tag it leaves the whole agent state (registry, settings,
pending applications) unchanged and emits no notification event. -/
theorem createElement_frame (st : AgentState) (tag : String) (fresh : MediaElement)
    (h : isMediaTag tag = false) :
    (∀ t : String, (createElement st t fresh).2.1 = fresh)
    ∧ (createElement st tag fresh).1 = st
    ∧ (createElement st tag fresh).2.2 = [] := by
  refine ⟨fun t => ?_, ?_, ?_⟩
  · unfold createElement; split <;> rfl
  · simp [createElement, h]
  · simp [createElement, h]

/-- Witness for `createElement_frame` at the concrete tag "div". -/
theorem createElement_frame_witness :
    (createElement initialAgentState "div" elW).1 = initialAgentState :=
  (createElement_frame initialAgentState "div" elW (by decide)).2.1

/-- Claim C1: after SetSpeed(v1) then SetSpeed(v2), a host-originated
bare-number write to the playback-rate property of a registered
non-canvas element leaves the property holding v2 (the blocked write is
replaced by the remembered current speed); a canvas element's property
ends at exactly 1 under any write, system-tagged or host-originated. -/
theorem setSpeed_wins_over_host_write (st : AgentState) (v1 v2 x : ℚ)
    (el : MediaElement)
    (hmem : el ∈ (setSpeed (setSpeed st v1) v2).elements) :
    (isCanvas el = false →
      (playbackRateSet (setSpeed (setSpeed st v1) v2).currentSpeed el
        (RateWrite.bare x)).rate = v2)
    ∧ (isCanvas el = true →
      ∀ w : RateWrite,
        (playbackRateSet (setSpeed (setSpeed st v1) v2).currentSpeed el w).rate = 1) := by
  constructor
  · intro h
    simp [setSpeed, playbackRateSet, h]
  · intro h w
    simp [setSpeed, playbackRateSet, h]

/-- Witness for `setSpeed_wins_over_host_write`: one registered element,
speeds 2 then 3, host write of 5; the property ends at 3. -/
theorem setSpeed_wins_over_host_write_witness :
    (playbackRateSet (setSpeed (setSpeed stW 2) 3).currentSpeed
      { elW with rate := 3 } (RateWrite.bare 5)).rate = 3 := by
  have hmem : { elW with rate := 3 } ∈ (setSpeed (setSpeed stW 2) 3).elements := by
    decide
  exact (setSpeed_wins_over_host_write stW 2 3 5 _ hmem).1 (by decide)

/-- Scanning a list from the end for the first match finds the last
matching element. -/
lemma find?_reverse_eq_getLast?_filter {α : Type} (p : α → Bool) (l : List α) :
    l.reverse.find? p = (l.filter p).getLast? := by
  induction l using List.reverseRecOn with
  | nil => rfl
  | append_singleton xs x ih =>
    rw [List.reverse_append, List.reverse_singleton, List.singleton_append,
      List.filter_append]
    by_cases h : p x
    · rw [List.find?_cons_of_pos _ h]
      have hx : List.filter p [x] = [x] := by simp [List.filter, h]
      rw [hx, List.getLast?_concat]
    · rw [List.find?_cons_of_neg _ h, ih]
      have hx : List.filter p [x] = [] := by simp [List.filter, h]
      rw [hx, List.append_nil]

/-- Counterexample to claim C2 as stated: with an empty registry but a
media element present in the document (reachable only by the DOM query
fallback of inject.js lines 93-95), getMediaElement returns that element,
not null. -/
theorem getMediaElement_empty_registry_not_null :
    getMediaElement [] [domOnlyElement] = some domOnlyElement := rfl

/-- Claim C2 as amended: the lookup returns the most-recently-registered
element that is playing with readyState at least 2 when one exists;
otherwise the most-recently-registered element; and only when the
registry is empty does it fall back to the last element of the DOM query
(null when that query is also empty). -/
theorem getMediaElement_characterization (els dom : List MediaElement) :
    getMediaElement els dom =
      (((els.filter isActive).getLast?).orElse fun _ => els.getLast?).orElse
        fun _ => dom.getLast? := by
  unfold getMediaElement
  rw [find?_reverse_eq_getLast?_filter]
  cases h1 : (els.filter isActive).getLast? with
  | some el => simp [Option.orElse]
  | none =>
    cases h2 : els.getLast? with
    | some el => simp [Option.orElse]
    | none => simp [Option.orElse]

/-- The draft Page Agent of src/src/content/inject.ts has no DOM
fallback: its lookup does return null exactly when the registry is
empty. -/
lemma getSpotifyMediaElement_empty : getSpotifyMediaElement [] = none := rfl

/-- Counterexample to claim C4 as stated: a command with an unrecognized
kind reaching the Page Agent's responder falls through the if/else chain
(inject.js lines 135-155 have no final else) and no response is
dispatched - it is silently ignored. -/
theorem unknown_page_command_gets_no_response :
    (handlePageCommand initialAgentState [] (PageCmd.unknownCmd "bogus")).2 = none := rfl

/-- Claim C4 as amended: the content script's message responder answers
every unrecognized action with an explicit failure payload, but the Page
Agent's command responder dispatches no response at all for an
unrecognized command kind (and leaves its state unchanged); such commands
are silently ignored and the caller's one-shot subscription can only time
out. -/
theorem unknown_command_responses (mirror : BridgeMirror) (initOutcome : Bool)
    (action : String) (st : AgentState) (dom : List MediaElement) (s : String)
    (h1 : action ≠ "init") (h2 : action ≠ "setPitch")
    (h3 : action ≠ "setSpeed") (h4 : action ≠ "getSettings") :
    handleRuntimeMessage mirror initOutcome action
      = { success := false, error := some "Unknown action" }
    ∧ (handlePageCommand st dom (PageCmd.unknownCmd s)).2 = none
    ∧ (handlePageCommand st dom (PageCmd.unknownCmd s)).1 = st := by
  refine ⟨?_, rfl, rfl⟩
  simp [handleRuntimeMessage, h1, h2, h3, h4]

/-- Witness for `unknown_command_responses` at the concrete action
"frobnicate". -/
theorem unknown_command_responses_witness :
    handleRuntimeMessage { pitch := 0, speed := 1, preservesPitch := true } true "frobnicate"
      = { success := false, error := some "Unknown action" } :=
  (unknown_command_responses { pitch := 0, speed := 1, preservesPitch := true } true
    "frobnicate" initialAgentState [] "bogus"
    (by decide) (by decide) (by decide) (by decide)).1

/-- Mapping an identity-preserving transformation over the registry keeps
the identity sequence. -/
lemma map_id_of_pointwise (g : MediaElement → MediaElement)
    (h : ∀ el, (g el).id = el.id) (els : List MediaElement) :
    (els.map g).map MediaElement.id = els.map MediaElement.id := by
  rw [List.map_map]
  exact List.map_congr_left fun el _ => h el

/-- Every single agent operation leaves the existing registry entries, in
order, as a prefix of the new registry (appending at most the newly
captured element). -/
lemma applyOp_ids (st : AgentState) (op : AgentOp) :
    ∃ tail, (applyOp st op).elements.map MediaElement.id
      = st.elements.map MediaElement.id ++ tail := by
  cases op with
  | createOp tag fresh =>
    simp only [applyOp, createElement]
    split
    · exact ⟨[fresh.id], by simp⟩
    · exact ⟨[], by simp⟩
  | deferredOp i =>
    refine ⟨[], ?_⟩
    rw [List.append_nil]
    simp only [applyOp, runDeferred]
    apply map_id_of_pointwise
    intro el
    dsimp only
    split
    · exact applySettingsTo_id _ _ _
    · rfl
  | hostWriteOp i x =>
    refine ⟨[], ?_⟩
    rw [List.append_nil]
    simp only [applyOp, hostWrite]
    apply map_id_of_pointwise
    intro el
    dsimp only
    split
    · exact playbackRateSet_id _ _ _
    · rfl
  | commandOp c dom =>
    cases c with
    | checkReady => exact ⟨[], by simp [applyOp, handlePageCommand]⟩
    | checkMediaElement => exact ⟨[], by simp [applyOp, handlePageCommand]⟩
    | setSpeedCmd v =>
      refine ⟨[], ?_⟩
      rw [List.append_nil]
      simp only [applyOp, handlePageCommand, setSpeed]
      exact map_id_of_pointwise _ (fun el => playbackRateSet_id _ _ _) _
    | setPreservesPitchCmd b =>
      refine ⟨[], ?_⟩
      rw [List.append_nil]
      simp only [applyOp, handlePageCommand, setPreservesPitch]
      exact map_id_of_pointwise (fun el => { el with preservesPitch := b })
        (fun el => rfl) st.elements
    | unknownCmd s => exact ⟨[], by simp [applyOp, handlePageCommand]⟩

/-- Claim C8: the registry is append-only - no operation of the Page
Agent removes an element, and insertion order is preserved: after any
single operation, and after any sequence of operations, the previous
registry's identity sequence is an unchanged prefix of the new one. -/
theorem registry_append_only (st : AgentState) :
    (∀ op : AgentOp, ∃ tail,
      (applyOp st op).elements.map MediaElement.id
        = st.elements.map MediaElement.id ++ tail)
    ∧ (∀ ops : List AgentOp, ∃ tail,
      (applyOps st ops).elements.map MediaElement.id
        = st.elements.map MediaElement.id ++ tail) := by
  constructor
  · exact applyOp_ids st
  · intro ops
    induction ops generalizing st with
    | nil => exact ⟨[], by simp [applyOps]⟩
    | cons op rest ih =>
      obtain ⟨t1, h1⟩ := applyOp_ids st op
      obtain ⟨t2, h2⟩ := ih (applyOp st op)
      refine ⟨t1 ++ t2, ?_⟩
      have : applyOps st (op :: rest) = applyOps (applyOp st op) rest := rfl
      rw [this, h2, h1, List.append_assoc]

/-- A single operation that is not a SetSpeed or SetPreservesPitch
command leaves both settings variables unchanged. -/
lemma settings_preserved_op (st : AgentState) (op : AgentOp)
    (h : isSettingsOp op = false) :
    (applyOp st op).currentSpeed = st.currentSpeed
    ∧ (applyOp st op).currentPreservesPitch = st.currentPreservesPitch := by
  cases op with
  | createOp tag fresh =>
    simp only [applyOp, createElement]
    split
    · exact ⟨rfl, rfl⟩
    · exact ⟨rfl, rfl⟩
  | deferredOp i => exact ⟨rfl, rfl⟩
  | hostWriteOp i x => exact ⟨rfl, rfl⟩
  | commandOp c dom =>
    cases c with
    | checkReady => exact ⟨rfl, rfl⟩
    | checkMediaElement => exact ⟨rfl, rfl⟩
    | setSpeedCmd v => simp [isSettingsOp] at h
    | setPreservesPitchCmd b => simp [isSettingsOp] at h
    | unknownCmd s => exact ⟨rfl, rfl⟩

/-- A sequence of operations containing no settings command leaves both
settings variables unchanged. -/
lemma settings_preserved_ops (ops : List AgentOp)
    (h : ∀ op ∈ ops, isSettingsOp op = false) (st : AgentState) :
    (applyOps st ops).currentSpeed = st.currentSpeed
    ∧ (applyOps st ops).currentPreservesPitch = st.currentPreservesPitch := by
  induction ops generalizing st with
  | nil => exact ⟨rfl, rfl⟩
  | cons op rest ih =>
    have h1 := settings_preserved_op st op (h op (List.mem_cons_self op rest))
    have h2 := ih (fun o ho => h o (List.mem_cons_of_mem op ho)) (applyOp st op)
    exact ⟨h2.1.trans h1.1, h2.2.trans h1.2⟩

/-- Claim C10: before any SetSpeed or SetPreservesPitch command is
processed, the settings are exactly speed 1 and preservesPitch true;
under those settings a blocked host write to a non-canvas element leaves
the playback-rate property at 1, and the deferred settings application
gives any media element rate 1 and preservesPitch true. -/
theorem default_settings_before_commands (ops : List AgentOp)
    (h : ∀ op ∈ ops, isSettingsOp op = false) :
    (applyOps initialAgentState ops).currentSpeed = 1
    ∧ (applyOps initialAgentState ops).currentPreservesPitch = true
    ∧ (∀ (el : MediaElement) (x : ℚ), isCanvas el = false →
        (playbackRateSet (applyOps initialAgentState ops).currentSpeed el
          (RateWrite.bare x)).rate = 1)
    ∧ (∀ el : MediaElement,
        (applySettingsTo (applyOps initialAgentState ops).currentSpeed
          (applyOps initialAgentState ops).currentPreservesPitch el).rate = 1
        ∧ (applySettingsTo (applyOps initialAgentState ops).currentSpeed
          (applyOps initialAgentState ops).currentPreservesPitch el).preservesPitch = true) := by
  obtain ⟨hs, hp⟩ := settings_preserved_ops ops h initialAgentState
  refine ⟨hs, hp, ?_, ?_⟩
  · intro el x hc
    rw [hs]
    simp [playbackRateSet, hc, initialAgentState]
  · intro el
    rw [hs, hp]
    constructor
    · by_cases hc : isCanvas el <;>
        simp [applySettingsTo, playbackRateSet, hc, initialAgentState]
    · simp [applySettingsTo, initialAgentState]

/-- Witness for `default_settings_before_commands` on a concrete
command-free run: an audio element is captured, its deferred application
fires, a host write is blocked, and a checkReady command is answered; the
settings still read speed 1 and preservesPitch true. -/
theorem default_settings_before_commands_witness :
    (applyOps initialAgentState
      [AgentOp.createOp "audio" elW, AgentOp.deferredOp 0,
        AgentOp.hostWriteOp 0 7, AgentOp.commandOp PageCmd.checkReady []]).currentSpeed = 1 :=
  (default_settings_before_commands
    [AgentOp.createOp "audio" elW, AgentOp.deferredOp 0,
      AgentOp.hostWriteOp 0 7, AgentOp.commandOp PageCmd.checkReady []]
    (by decide)).1

/-- Association-list lookup ignores a right extension once the key is
found on the left. -/
lemma lookup_append_left (l1 l2 : List (Nat × Option ResponsePayload)) (c : Nat)
    (v : Option ResponsePayload) (h : l1.lookup c = some v) :
    (l1 ++ l2).lookup c = some v := by
  induction l1 with
  | nil => simp [List.lookup] at h
  | cons p rest ih =>
    obtain ⟨k, w⟩ := p
    cases hck : c == k with
    | true =>
      simp only [List.lookup, hck] at h
      simp only [List.cons_append, List.lookup, hck]
      exact h
    | false =>
      simp only [List.lookup, hck] at h
      simp only [List.cons_append, List.lookup, hck]
      exact ih h

/-- Association-list lookup passes to the right extension when the key is
absent on the left. -/
lemma lookup_append_right (l1 l2 : List (Nat × Option ResponsePayload)) (c : Nat)
    (h : l1.lookup c = none) :
    (l1 ++ l2).lookup c = l2.lookup c := by
  induction l1 with
  | nil => rfl
  | cons p rest ih =>
    obtain ⟨k, w⟩ := p
    cases hck : c == k with
    | true =>
      simp only [List.lookup, hck] at h
      exact Option.noConfusion h
    | false =>
      simp only [List.lookup, hck] at h
      simp only [List.cons_append, List.lookup, hck]
      exact ih h

/-- Looking up a member of a constant-valued association map yields that
value. -/
lemma lookup_map_mem (L : List Nat) (c : Nat) (v : Option ResponsePayload)
    (hc : c ∈ L) :
    (L.map fun k => (k, v)).lookup c = some v := by
  induction L with
  | nil => simp at hc
  | cons a rest ih =>
    cases hck : c == a with
    | true => simp [List.lookup, hck]
    | false =>
      simp only [List.map_cons, List.lookup, hck]
      refine ih ?_
      rcases List.mem_cons.mp hc with h | h
      · exact absurd (h ▸ beq_iff_eq.mpr rfl : (c == a) = true) (by simp [hck])
      · exact h

/-- Every single bridge event only appends to the resolution record. -/
lemma stepBridge_outcomes (st : BridgeState) (op : BridgeOp) :
    ∃ t, (stepBridge st op).outcomes = st.outcomes ++ t := by
  cases op with
  | send c => exact ⟨[], by simp [stepBridge]⟩
  | respond r => exact ⟨_, rfl⟩
  | timeoutFire c =>
    simp only [stepBridge]
    split
    · exact ⟨[(c, none)], rfl⟩
    · exact ⟨[], by simp⟩

/-- Running any sequence of bridge events only appends to the resolution
record. -/
lemma foldl_outcomes (ops : List BridgeOp) (st : BridgeState) :
    ∃ t, (ops.foldl stepBridge st).outcomes = st.outcomes ++ t := by
  induction ops generalizing st with
  | nil => exact ⟨[], by simp⟩
  | cons op rest ih =>
    obtain ⟨t1, h1⟩ := stepBridge_outcomes st op
    obtain ⟨t2, h2⟩ := ih (stepBridge st op)
    exact ⟨t1 ++ t2, by rw [List.foldl_cons, h2, h1, List.append_assoc]⟩

/-- Counterexample to claim C3 as stated: commands and responses carry no
correlation id, and a single response event resolves every pending call.
Call 0's command is checkMediaElement, whose actual answer at this state
would be the hasMediaElement payload; call 1's command is checkReady,
answered with the ready payload.  Dispatching that one ready response
resolves both calls with it, so call 0 receives the answer to call 1's
command, not to its own. -/
theorem uncorrelated_response_counterexample :
    (handlePageCommand initialAgentState [] PageCmd.checkMediaElement).2
      = some { hasMediaElement := some false }
    ∧ (handlePageCommand initialAgentState [] PageCmd.checkReady).2
      = some { ready := some true }
    ∧ (runBridge [BridgeOp.send 0, BridgeOp.send 1,
        BridgeOp.respond { ready := some true }]).outcomes
      = [(0, some { ready := some true }), (1, some { ready := some true })] :=
  ⟨rfl, rfl, rfl⟩

/-- Claim C3 as amended: there is no correlation id; a pending call is
resolved by the first response event dispatched while its one-shot
subscription is registered (all concurrently pending calls resolve with
that same payload, so a call can receive the answer to another call's
command), or by its own timeout. -/
theorem first_response_resolves_pending (pre post : List BridgeOp) (c : Nat)
    (r : ResponsePayload)
    (hc : c ∈ (runBridge pre).listeners)
    (hnew : (runBridge pre).outcomes.lookup c = none) :
    ((runBridge (pre ++ BridgeOp.respond r :: post)).outcomes).lookup c
      = some (some r) := by
  have hrun : runBridge (pre ++ BridgeOp.respond r :: post)
      = post.foldl stepBridge (stepBridge (runBridge pre) (BridgeOp.respond r)) := by
    simp [runBridge, List.foldl_append]
  rw [hrun]
  obtain ⟨t, ht⟩ := foldl_outcomes post (stepBridge (runBridge pre) (BridgeOp.respond r))
  rw [ht]
  apply lookup_append_left
  show ((runBridge pre).outcomes
    ++ (runBridge pre).listeners.map fun k => (k, some r)).lookup c = some (some r)
  rw [lookup_append_right _ _ _ hnew]
  exact lookup_map_mem _ _ _ hc

/-- Witness for `first_response_resolves_pending`: a single call sent and
answered resolves with that answer. -/
theorem first_response_resolves_pending_witness :
    ((runBridge ([BridgeOp.send 0]
      ++ BridgeOp.respond { ready := some true } :: [])).outcomes).lookup 0
      = some (some { ready := some true }) :=
  first_response_resolves_pending [BridgeOp.send 0] [] 0 { ready := some true }
    (by decide) rfl

/-- Claim C5: a cross-realm call whose response never arrives resolves to
the null (timeout) outcome when its timeout fires, and the one-shot
subscription is removed on the timeout path; on the response path the
subscription is removed as well (a response event clears every pending
subscription). -/
theorem timeout_resolves_and_removes (pre : List BridgeOp) (c : Nat)
    (hc : c ∈ (runBridge pre).listeners)
    (hnodup : (runBridge pre).listeners.Nodup)
    (hnew : (runBridge pre).outcomes.lookup c = none) :
    ((runBridge (pre ++ [BridgeOp.timeoutFire c])).outcomes.lookup c = some none)
    ∧ c ∉ (runBridge (pre ++ [BridgeOp.timeoutFire c])).listeners
    ∧ ∀ r : ResponsePayload,
        (stepBridge (runBridge pre) (BridgeOp.respond r)).listeners = [] := by
  have hrun : runBridge (pre ++ [BridgeOp.timeoutFire c])
      = stepBridge (runBridge pre) (BridgeOp.timeoutFire c) := by
    simp [runBridge, List.foldl_append]
  have hstep : stepBridge (runBridge pre) (BridgeOp.timeoutFire c)
      = { listeners := (runBridge pre).listeners.erase c,
          outcomes := (runBridge pre).outcomes ++ [(c, none)] } := by
    simp only [stepBridge, if_pos hc]
  refine ⟨?_, ?_, fun r => rfl⟩
  · rw [hrun, hstep]
    rw [lookup_append_right _ _ _ hnew]
    simp [List.lookup]
  · rw [hrun, hstep]
    intro hmem
    exact ((List.Nodup.mem_erase_iff hnodup).mp hmem).1 rfl

/-- Witness for `timeout_resolves_and_removes`: one call sent and never
answered; its timeout resolves it to null. -/
theorem timeout_resolves_and_removes_witness :
    (runBridge ([BridgeOp.send 7] ++ [BridgeOp.timeoutFire 7])).outcomes.lookup 7
      = some none :=
  (timeout_resolves_and_removes [BridgeOp.send 7] 7
    (by decide) (by decide) rfl).1
